import Mathlib

/-!
Verification development for the TVWS capture orchestration controller
(Codebase/Collection/Local).  Python functions are shallowly embedded as
Lean functions; polled process state is passed explicitly as traces of
observations, and the file system is an explicit finite map.
-/

namespace LocalCollect

/-- State of one enabled receiver process as observed at one iteration of the
readiness-wait poll loop in run_capture (local_collect.py lines 493-519):
whether its ready Event is set, and the result of proc.poll()
(none while the process is still running, some rc once it has exited). -/
structure RxObs where
  ready : Bool
  exitCode : Option Int
deriving Repr, DecidableEq

/-- One iteration of the poll loop: the per-receiver observations (one entry
per enabled receiver, in launch order) and the elapsed monotonic time since
the loop started. -/
structure Obs where
  rxs : List RxObs
  elapsed : ℚ
deriving Repr, DecidableEq

/-- Python: all(ev.is_set() for _, ev in ready_events). -/
def allReady (o : Obs) : Bool :=
  o.rxs.all (·.ready)

/-- Python: some proc has rc = proc.poll() not None while its ready event is
not set (the died-before-READY bailout, local_collect.py lines 500-511). -/
def existsDeadUnready (o : Obs) : Bool :=
  o.rxs.any (fun r => r.exitCode.isSome && !r.ready)

/-- How the readiness-wait loop of run_capture exits: break into the TX step
(proceed, recording the deciding observation), return 3 (a receiver exited
before READY), or return 4 (timeout waiting for READY). -/
inductive ReadyOutcome
  | proceed (o : Obs)
  | diedBeforeReady
  | readyTimeout
deriving Repr, DecidableEq

/-- The readiness-wait loop of run_capture (local_collect.py lines 495-519)
over a trace of poll observations.  Each iteration checks, in source order:
all ready events set (break to TX); any receiver exited with its event unset
(return 3); elapsed greater than tx_wait_timeout_s (return 4); otherwise
sleep and poll again.  none models a trace that ends before any exit. -/
def awaitReady (timeout : ℚ) : List Obs → Option ReadyOutcome
  | [] => none
  | o :: rest =>
    if allReady o then some (.proceed o)
    else if existsDeadUnready o then some .diedBeforeReady
    else if timeout < o.elapsed then some .readyTimeout
    else awaitReady timeout rest

/-- Observable outcome of one run_capture call: how many receiver processes
were started, whether the transmitter process was launched, and the return
code. -/
structure CaptureOutcome where
  rxLaunched : Nat
  txLaunched : Bool
  rc : Int
deriving Repr, DecidableEq

/-- run_capture (local_collect.py lines 431-572): start each enabled
receiver; if none is enabled return 2; run the readiness-wait loop; on
diedBeforeReady return 3, on readyTimeout return 4; otherwise launch the
transmitter, wait out the receivers, and return 0 if the TX return code was
0, else that TX return code.  The trace supplies what the poll loop
observes; txRc is the transmitter's exit code; rxFinal lists the exit codes
the completion wait observes for the launched receivers (none = still
running at the deadline, terminated then killed).  Lines 543-556 only print
warnings for non-zero or timed-out receivers: line 572 computes the return
value from tx_rc alone, so rxFinal does not influence the outcome. -/
def run_capture (rx1Enabled rx2Enabled : Bool) (timeout : ℚ)
    (trace : List Obs) (txRc : Int) (rxFinal : List (Option Int)) :
    Option CaptureOutcome :=
  let n := (if rx1Enabled then 1 else 0) + (if rx2Enabled then 1 else 0)
  if n = 0 then some ⟨0, false, 2⟩
  else
    match awaitReady timeout trace with
    | some (.proceed _) => some ⟨n, true, if txRc = 0 then 0 else txRc⟩
    | some .diedBeforeReady => some ⟨n, false, 3⟩
    | some .readyTimeout => some ⟨n, false, 4⟩
    | none => none

end LocalCollect

namespace ReadinessDetector

/-- An occurrence affecting one receiver's ready Event during an attempt:
either the tee thread reads one output line from the process
(local_collect.py _tee_and_detect, lines 313-336), or the fallback Timer
armed at launch fires after ready_timeout_s
(_start_rx_hackrf_transfer, lines 387-390). -/
inductive Happening
  | outLine (s : String)
  | timerFire
deriving Repr, DecidableEq

/-- Effect of one happening on the ready Event state.  An output line runs
the guard of _tee_and_detect: if (not ready_event.is_set()) and any pattern
matching the line, ready_event.set(); the timer callback unconditionally
runs ready_event.set().  pmatch abstracts the compiled case-insensitive
ready regexes applied by any(r.search(line) for r in ready_regexes). -/
def stepReady (pmatch : String → Bool) (ready : Bool) : Happening → Bool
  | .outLine s => if !ready && pmatch s then true else ready
  | .timerFire => true

/-- The ready Event state after a sequence of happenings of an attempt. -/
def runReady (pmatch : String → Bool) (ready : Bool) (hs : List Happening) : Bool :=
  hs.foldl (stepReady pmatch) ready

/-- A happening that causes the event to fire from the unset state: a
matching output line, or the fallback timer. -/
def isSetter (pmatch : String → Bool) : Happening → Bool
  | .outLine s => pmatch s
  | .timerFire => true

/-- Number of unset-to-set transitions of the ready Event along a sequence
of happenings. -/
def countFlips (pmatch : String → Bool) : Bool → List Happening → Nat
  | _, [] => 0
  | ready, h :: hs =>
    (if !ready && stepReady pmatch ready h then 1 else 0)
      + countFlips pmatch (stepReady pmatch ready h) hs

end ReadinessDetector

namespace HackrfGuard

/-- The polling while-loop of wait_hackrf_free
(util/hackrf_process.py lines 32-36 and local_collect.py lines 189-193):
each Bool is the result of one in-window _pgrep_serial check (true = a
hackrf_transfer process bound to the serial was found); the loop returns
free (true) at the first check that finds no such process. -/
def waitLoop : List Bool → Bool
  | [] => false
  | busy :: rest => if !busy then true else waitLoop rest

/-- wait_hackrf_free (util/hackrf_process.py lines 28-37): an empty serial
is immediately free; otherwise poll within the bounded window, returning
free at the first check finding no bound process, and if the window closes
still busy, return the negation of one final _pgrep_serial check. -/
def wait_hackrf_free (serial : String) (polls : List Bool) (finalBusy : Bool) : Bool :=
  if serial = "" then true
  else if waitLoop polls then true
  else !finalBusy

end HackrfGuard

namespace Collector

/-- Per-run file names used by run_collection (app/collector.py lines
59-75): the five canonical per-run files (rx1.iq, rx2.iq, rx1.log, rx2.log,
tx.log) and the per-attempt files carrying the attempt number in their name
(rx1_tryN.iq, rx2_tryN.iq, rx1_tryN.log, rx2_tryN.log, tx_tryN.log). -/
inductive FName
  | rx1_iq
  | rx2_iq
  | rx1_log
  | rx2_log
  | tx_log
  | rx1_iq_try (n : ℕ)
  | rx2_iq_try (n : ℕ)
  | rx1_log_try (n : ℕ)
  | rx2_log_try (n : ℕ)
  | tx_log_try (n : ℕ)
deriving Repr, DecidableEq

/-- The run directory as a map from file name to contents (a ℕ abstracts
the bytes); none means the file does not exist. -/
def FS : Type :=
  FName → Option ℕ

/-- A freshly created run directory. -/
def emptyFS : FS :=
  fun _ => none

/-- Write contents (some v) to, or unlink (none), one file. -/
def writeF (fs : FS) (f : FName) (v : Option ℕ) : FS :=
  fun g => if g = f then v else fs g

/-- The externally determined events of one attempt of run_collection
(app/collector.py lines 68-219): whether the readiness phase passed (for
hw_trigger, both _wait_for_log_text calls returned True; without it, the
sleep path), the TX exit code observed within tx_wait_timeout_s (none if
tx.wait raised TimeoutExpired), each receiver's exit code observed within
the receiver deadline (none if its wait timed out), the bytes each process
wrote to its attempt log, and the contents the receiver processes left in
their attempt .iq files (none if the file was never created). -/
structure AttemptData where
  readyOk : Bool
  txRc : Option Int
  rx1Rc : Option Int
  rx2Rc : Option Int
  rx1Log : ℕ
  rx2Log : ℕ
  txLog : ℕ
  rx1Iq : Option ℕ
  rx2Iq : Option ℕ
deriving Repr, DecidableEq

/-- The attempt-scoped file names of attempt n. -/
def attemptScoped (n : ℕ) (f : FName) : Bool :=
  (f == FName.rx1_iq_try n) || (f == FName.rx2_iq_try n)
    || (f == FName.rx1_log_try n) || (f == FName.rx2_log_try n)
    || (f == FName.tx_log_try n)

/-- collector.py lines 77-82: delete this attempt's files if present. -/
def clearTry (fs : FS) (n : ℕ) : FS :=
  writeF (writeF (writeF (writeF (writeF fs (.rx1_iq_try n) none)
    (.rx2_iq_try n) none) (.rx1_log_try n) none) (.rx2_log_try n) none)
    (.tx_log_try n) none

/-- Files as written during the attempt body (collector.py lines 122-156):
_popen_to_files creates both receiver attempt logs, the receiver processes
leave their attempt .iq files as captured, and the transmitter attempt log
is created only when the readiness phase passed and the TX process was
launched. -/
def attemptWrites (fs : FS) (n : ℕ) (d : AttemptData) : FS :=
  let fs1 := clearTry fs n
  let fs2 := writeF fs1 (.rx1_log_try n) (some d.rx1Log)
  let fs3 := writeF fs2 (.rx2_log_try n) (some d.rx2Log)
  let fs4 := writeF fs3 (.rx1_iq_try n) d.rx1Iq
  let fs5 := writeF fs4 (.rx2_iq_try n) d.rx2Iq
  if d.readyOk then writeF fs5 (.tx_log_try n) (some d.txLog) else fs5

/-- Log promotion on the success path (collector.py lines 163-175): the
canonical log files are overwritten with the attempt logs' contents. -/
def promoteLogs (fs : FS) (n : ℕ) : FS :=
  let f1 := writeF fs .rx1_log (fs (.rx1_log_try n))
  let f2 := writeF f1 .rx2_log (f1 (.rx2_log_try n))
  writeF f2 .tx_log (f2 (.tx_log_try n))

/-- collector.py lines 177-187: unlink existing canonical .iq files before
the attempt files replace them. -/
def unlinkCanonIq (fs : FS) : FS :=
  writeF (writeF fs .rx1_iq none) .rx2_iq none

/-- Path.replace (collector.py lines 189-190): move src over dst; raises
(returns false) when src does not exist. -/
def replaceF (fs : FS) (src dst : FName) : FS × Bool :=
  match fs src with
  | some v => (writeF (writeF fs dst (some v)) src none, true)
  | none => (fs, false)

/-- The boolean checks the attempt body passes before promotion
(collector.py lines 126-161): readiness, TX exit 0 within the TX wait
timeout, both receivers exited within the receiver deadline with code 0. -/
def checksPass (d : AttemptData) : Bool :=
  d.readyOk && (d.txRc == some 0) && (d.rx1Rc == some 0) && (d.rx2Rc == some 0)

/-- Whether an attempt succeeds overall: the checks pass and both attempt
.iq files exist, so that both Path.replace calls succeed. -/
def attemptSucceeds (d : AttemptData) : Bool :=
  checksPass d && d.rx1Iq.isSome && d.rx2Iq.isSome

/-- One attempt of run_collection (collector.py lines 68-219) as a file
system transformation, also reporting whether the attempt succeeded (break)
or failed (except-branch).  On the success path logs are promoted and the
canonical .iq files are unlinked before the replaces; a replace whose
source is missing aborts the attempt at that point (exception caught by
the except-branch). -/
def runAttempt (fs : FS) (n : ℕ) (d : AttemptData) : FS × Bool :=
  let fsW := attemptWrites fs n d
  if checksPass d then
    let fsL := promoteLogs fsW n
    let fsU := unlinkCanonIq fsL
    let r1 := replaceF fsU (.rx1_iq_try n) .rx1_iq
    if r1.2 then
      let r2 := replaceF r1.1 (.rx2_iq_try n) .rx2_iq
      if r2.2 then (r2.1, true) else (r2.1, false)
    else (r1.1, false)
  else (fsW, false)

/-- Outcome of the per-run attempt loop: promotion after some attempt, or
SystemExit(1) after the final failed attempt. -/
inductive RunOutcome
  | promoted (fs : FS) (attemptsUsed sleeps : ℕ)
  | abortedRun (attemptsUsed sleeps : ℕ)

/-- Whether the run aborted the session (raise SystemExit(1)). -/
def RunOutcome.aborted : RunOutcome → Bool
  | .promoted _ _ _ => false
  | .abortedRun _ _ => true

/-- Number of attempts executed for the run. -/
def RunOutcome.attemptsUsed : RunOutcome → ℕ
  | .promoted _ a _ => a
  | .abortedRun a _ => a

/-- Number of backoff sleeps (time.sleep(retry_backoff_s)) executed. -/
def RunOutcome.sleeps : RunOutcome → ℕ
  | .promoted _ _ s => s
  | .abortedRun _ s => s

/-- The attempt loop of run_collection for one run (collector.py lines
68-219) over the list of remaining attempt numbers: run the attempt; on
success break with the promoted file system; on failure sleep the backoff
(counted) if attempt is less than max_retries and continue, else raise
SystemExit(1). -/
def runRunGo (ds : ℕ → AttemptData) (maxRetries : ℕ) :
    FS → ℕ → List ℕ → RunOutcome
  | _, sleeps, [] => .abortedRun 0 sleeps
  | fs, sleeps, a :: rest =>
    let r := runAttempt fs a (ds a)
    if r.2 then .promoted r.1 a sleeps
    else if a < maxRetries then runRunGo ds maxRetries r.1 (sleeps + 1) rest
    else .abortedRun a sleeps

/-- The full attempt loop for one run, attempts numbered 1..max_retries. -/
def runRun (ds : ℕ → AttemptData) (maxRetries : ℕ) (fs : FS) : RunOutcome :=
  runRunGo ds maxRetries fs 0 (List.range' 1 maxRetries)

/-- Result of the whole session loop: all runs completed, or SystemExit(1)
propagated from the run that exhausted its retries.  runsStarted records
the run indices whose loop bodies began executing. -/
inductive SessionResult
  | completed (runsStarted : List ℕ)
  | abortedSession (status : ℕ) (failedRun : ℕ) (runsStarted : List ℕ)
deriving Repr, DecidableEq

/-- The session loop of run_collection (collector.py lines 54-241) over the
remaining run indices; each run works in its own freshly created run
directory. -/
def run_collection_go (ds : ℕ → ℕ → AttemptData) (maxRetries : ℕ) :
    List ℕ → List ℕ → SessionResult
  | started, [] => .completed started
  | started, i :: rest =>
    let out := runRun (ds i) maxRetries emptyFS
    if out.aborted then .abortedSession 1 i (started ++ [i])
    else run_collection_go ds maxRetries (started ++ [i]) rest

/-- run_collection's session loop over runs 1..runs. -/
def run_collection (ds : ℕ → ℕ → AttemptData) (runs maxRetries : ℕ) :
    SessionResult :=
  run_collection_go ds maxRetries [] (List.range' 1 runs)

end Collector

namespace Timing

/-- local_collect.py run_capture line 538:
capture_secs = nsamples / max(1, sample_rate_hz). -/
def capture_secs (nsamples sample_rate_hz : ℕ) : ℚ :=
  (nsamples : ℚ) / ((max 1 sample_rate_hz : ℕ) : ℚ)

/-- local_collect.py run_capture line 539:
wait_budget = capture_secs + safety_margin_s. -/
def wait_budget (nsamples sample_rate_hz : ℕ) (safety_margin_s : ℚ) : ℚ :=
  capture_secs nsamples sample_rate_hz + safety_margin_s

/-- local_collect.py run_capture line 542: the receiver-completion deadline
offset, deadline - now = wait_budget + 2.0 (the fixed extra grace). -/
def rx_wait_deadline (nsamples sample_rate_hz : ℕ) (safety_margin_s : ℚ) : ℚ :=
  wait_budget nsamples sample_rate_hz safety_margin_s + 2

/-- app/collector.py line 154: the per-attempt receiver-wait deadline,
rx_deadline = max(2.0, safety_margin_s + 2.0). -/
def rx_deadline (safety_margin_s : ℚ) : ℚ :=
  max 2 (safety_margin_s + 2)

/-- Modelled from the claim's words: the AwaitingCompletion deadline as the
expected receiver runtime sample_count / sample_rate plus the configured
safety margin plus a fixed grace period. -/
def claimed_deadline (sample_count sample_rate : ℕ) (margin grace : ℚ) : ℚ :=
  (sample_count : ℚ) / (sample_rate : ℚ) + margin + grace

end Timing

namespace Latest

/-- The Latest convenience directory as produced by _update_latest_dir
(utils/latest.py): the copied run files (name, contents), the copied
session config when present, and the run index recorded in
LATEST_SOURCE.txt (zero padding of the run name omitted). -/
structure LatestDir where
  files : List (String × ℕ)
  sessionConfig : Option ℕ
  sourceRun : ℕ
deriving Repr, DecidableEq

/-- _update_latest_dir (utils/latest.py lines 7-30): remove any existing
Latest directory wholesale, recreate it, copy every file of the given run
directory into it, copy session_config.json when it exists, and write the
LATEST_SOURCE.txt marker naming the source run. -/
def _update_latest_dir (_previous : Option LatestDir)
    (runFiles : List (String × ℕ)) (sessionConfig : Option ℕ)
    (runIdx : ℕ) : LatestDir :=
  ⟨runFiles, sessionConfig, runIdx⟩

/-- The Latest update applied at the end of run i by run_collection
(app/collector.py lines 226-234): the Latest directory is rewritten only
when i = 1. -/
def latestAfterRun (latest : Option LatestDir) (i : ℕ)
    (runFiles : ℕ → List (String × ℕ)) (sessionConfig : Option ℕ) :
    Option LatestDir :=
  if i = 1 then some (_update_latest_dir latest (runFiles i) sessionConfig i)
  else latest

/-- The Latest directory state after runs 1..n of the session loop have
completed. -/
def latestAfterRuns (runFiles : ℕ → List (String × ℕ))
    (sessionConfig : Option ℕ) : ℕ → Option LatestDir
  | 0 => none
  | n + 1 =>
    latestAfterRun (latestAfterRuns runFiles sessionConfig n) (n + 1)
      runFiles sessionConfig

end Latest

namespace LocalCollect

/-- The loop can only break into the TX step at an observation where every
enabled receiver's ready event is set. -/
lemma awaitReady_proceed_allReady (timeout : ℚ) :
    ∀ (trace : List Obs) (o : Obs),
      awaitReady timeout trace = some (.proceed o) → allReady o = true := by
  intro trace
  induction trace with
  | nil => intro o h; simp [awaitReady] at h
  | cons x rest ih =>
    intro o h
    by_cases hx : allReady x = true
    · simp [awaitReady, hx] at h
      exact h ▸ hx
    · simp only [awaitReady, hx] at h
      by_cases hd : existsDeadUnready x = true
      · simp [hd] at h
      · simp only [hd, if_false, Bool.false_eq_true, if_neg] at h
        by_cases ht : timeout < x.elapsed
        · simp [ht] at h
        · simp only [ht, if_false] at h
          exact ih o h

/-- Iterations at which no exit condition holds are skipped by the loop. -/
lemma awaitReady_skip (timeout : ℚ) (pre rest : List Obs)
    (hpre : ∀ p ∈ pre,
      allReady p = false ∧ existsDeadUnready p = false ∧ ¬ timeout < p.elapsed) :
    awaitReady timeout (pre ++ rest) = awaitReady timeout rest := by
  induction pre with
  | nil => rfl
  | cons x xs ih =>
    obtain ⟨h1, h2, h3⟩ := hpre x (by simp)
    simp only [List.cons_append, awaitReady, h1, h2, if_neg h3, Bool.false_eq_true,
      if_false]
    exact ih (fun p hp => hpre p (by simp [hp]))

/-- C1: the transmitter process is launched only after every enabled
receiver's readiness event is set: whenever run_capture reports that the
transmitter was launched, the readiness-wait loop exited at an observation
at which all enabled receivers' ready events were set. -/
theorem run_capture_tx_only_after_all_ready
    (e1 e2 : Bool) (timeout : ℚ) (trace : List Obs) (txRc : Int)
    (rxFinal : List (Option Int)) (r : CaptureOutcome)
    (hres : run_capture e1 e2 timeout trace txRc rxFinal = some r)
    (htx : r.txLaunched = true) :
    ∃ o, awaitReady timeout trace = some (.proceed o) ∧ allReady o = true := by
  simp only [run_capture] at hres
  by_cases hn : ((if e1 then 1 else 0) + (if e2 then 1 else 0) : Nat) = 0
  · rw [if_pos hn] at hres
    cases Option.some.inj hres
    simp at htx
  · rw [if_neg hn] at hres
    cases haw : awaitReady timeout trace with
    | none => rw [haw] at hres; cases hres
    | some out =>
      rw [haw] at hres
      cases out with
      | proceed o =>
        exact ⟨o, rfl, awaitReady_proceed_allReady timeout trace o haw⟩
      | diedBeforeReady => cases Option.some.inj hres; simp at htx
      | readyTimeout => cases Option.some.inj hres; simp at htx

/-- Witness for C1 at a concrete input: both receivers enabled, first poll
sees both ready events set, transmitter exits 0. -/
theorem run_capture_tx_only_after_all_ready_witness :
    ∃ o, awaitReady 10 [⟨[⟨true, none⟩, ⟨true, none⟩], 0⟩]
        = some (.proceed o) ∧ allReady o = true :=
  run_capture_tx_only_after_all_ready true true 10
    [⟨[⟨true, none⟩, ⟨true, none⟩], 0⟩] 0 [some 0, some 0] ⟨2, true, 0⟩ rfl rfl

/-- C2: if an enabled receiver process exits with a non-zero code while its
readiness event is still unset (and every earlier poll iteration had hit no
exit condition), run_capture returns 3 ("exited before READY") and the
transmitter is never launched in that attempt. -/
theorem run_capture_died_before_armed
    (e1 e2 : Bool) (timeout : ℚ) (pre : List Obs) (o : Obs) (post : List Obs)
    (txRc : Int) (rxFinal : List (Option Int)) (c : Int)
    (henabled : e1 = true ∨ e2 = true)
    (hpre : ∀ p ∈ pre,
      allReady p = false ∧ existsDeadUnready p = false ∧ ¬ timeout < p.elapsed)
    (hdead : ∃ rx ∈ o.rxs, rx.exitCode = some c ∧ c ≠ 0 ∧ rx.ready = false) :
    run_capture e1 e2 timeout (pre ++ o :: post) txRc rxFinal
      = some ⟨(if e1 then 1 else 0) + (if e2 then 1 else 0), false, 3⟩ := by
  obtain ⟨rx, hmem, hec, _hc0, hrdy⟩ := hdead
  have hDU : existsDeadUnready o = true := by
    simp only [existsDeadUnready, List.any_eq_true]
    exact ⟨rx, hmem, by simp [hec, hrdy]⟩
  have hAR : allReady o = false := by
    apply Bool.eq_false_iff.mpr
    intro hall
    simp only [allReady, List.all_eq_true] at hall
    have := hall rx hmem
    simp [hrdy] at this
  have hloop : awaitReady timeout (pre ++ o :: post) = some .diedBeforeReady := by
    rw [awaitReady_skip timeout pre (o :: post) hpre]
    simp [awaitReady, hAR, hDU]
  have hn : ((if e1 then 1 else 0) + (if e2 then 1 else 0) : Nat) ≠ 0 := by
    rcases henabled with h | h <;> simp [h]
  simp only [run_capture, if_neg hn, hloop]

/-- Witness for C2 at a concrete input: one enabled receiver, seen exited
with code 1 before its readiness event is set at the first poll. -/
theorem run_capture_died_before_armed_witness :
    run_capture true false 10 ([] ++ (⟨[⟨false, some 1⟩], 0⟩ : Obs) :: []) 0 []
      = some ⟨(if true then 1 else 0) + (if false then 1 else 0), false, 3⟩ :=
  run_capture_died_before_armed true false 10 [] ⟨[⟨false, some 1⟩], 0⟩ [] 0 [] 1
    (Or.inl rfl) (by simp) ⟨⟨false, some 1⟩, by simp, rfl, by decide, rfl⟩

/-- C10: with both receivers disabled, run_capture starts no receiver
process, never launches the transmitter, and returns exit code 2. -/
theorem run_capture_no_receivers (timeout : ℚ) (trace : List Obs) (txRc : Int)
    (rxFinal : List (Option Int)) :
    run_capture false false timeout trace txRc rxFinal = some ⟨0, false, 2⟩ :=
  rfl

/-- C5 counterexample: in run_capture (local_collect.py lines 543-572) a
receiver observed exiting with code 1 during the completion wait only
produces a warning: with the transmitter exiting 0, the call returns exit
code 0 (success), not a failure. -/
theorem run_capture_warns_only_on_rx_exit :
    run_capture true true 10 [⟨[⟨true, none⟩, ⟨true, none⟩], 0⟩] 0
      [some 1, some 0] = some ⟨2, true, 0⟩ := rfl

end LocalCollect

namespace ReadinessDetector

/-- Setting an already-set event leaves it set: double-fire is a no-op. -/
lemma stepReady_on_set (pmatch : String → Bool) (h : Happening) :
    stepReady pmatch true h = true := by
  cases h <;> simp [stepReady]

/-- Once set, the event stays set through any further happenings. -/
lemma runReady_on_set (pmatch : String → Bool) (hs : List Happening) :
    runReady pmatch true hs = true := by
  induction hs with
  | nil => rfl
  | cons h hs ih =>
    simp only [runReady, List.foldl_cons, stepReady_on_set]
    exact ih

/-- From the unset state, one happening sets the event exactly when it is a
setter (a matching line, or the timer). -/
lemma stepReady_on_unset (pmatch : String → Bool) (h : Happening) :
    stepReady pmatch false h = isSetter pmatch h := by
  cases h with
  | outLine s =>
    by_cases hm : pmatch s = true <;> simp [stepReady, isSetter, hm]
  | timerFire => rfl

/-- The event ends set iff some happening in the sequence is a setter. -/
lemma runReady_eq_true_iff (pmatch : String → Bool) (hs : List Happening) :
    runReady pmatch false hs = true ↔ ∃ h ∈ hs, isSetter pmatch h = true := by
  induction hs with
  | nil => simp [runReady]
  | cons h hs ih =>
    simp only [runReady, List.foldl_cons, stepReady_on_unset]
    by_cases hset : isSetter pmatch h = true
    · rw [hset]
      have hfold : List.foldl (stepReady pmatch) true hs = true :=
        runReady_on_set pmatch hs
      constructor
      · intro _
        exact ⟨h, by simp, hset⟩
      · intro _
        exact hfold
    · rw [Bool.eq_false_iff.mpr hset]
      simp only [runReady] at ih
      rw [ih]
      simp [hset]

/-- No transitions happen from the set state. -/
lemma countFlips_on_set (pmatch : String → Bool) (hs : List Happening) :
    countFlips pmatch true hs = 0 := by
  induction hs with
  | nil => rfl
  | cons h hs ih =>
    simp [countFlips, stepReady_on_set, ih]

/-- From the unset state the event transitions exactly once when it ends
set, and never otherwise. -/
lemma countFlips_on_unset (pmatch : String → Bool) (hs : List Happening) :
    countFlips pmatch false hs
      = (if runReady pmatch false hs = true then 1 else 0) := by
  induction hs with
  | nil => simp [countFlips, runReady]
  | cons h hs ih =>
    simp only [countFlips, stepReady_on_unset, runReady, List.foldl_cons]
    by_cases hset : isSetter pmatch h = true
    · rw [hset]
      have hfold : List.foldl (stepReady pmatch) true hs = true :=
        runReady_on_set pmatch hs
      simp [countFlips_on_set, hfold]
    · rw [Bool.eq_false_iff.mpr hset]
      simp only [runReady] at ih
      simp [ih]

/-- C7: the ReadinessSignal is one-shot.  For every attempt and every
sequence of happenings: a set() on an already-set event is a no-op (not an
error), the event is never reset once set, the event ends set exactly when
some output line matched a ready pattern or the fallback timer fired (so it
is set even if the process emitted nothing, by the timer), and starting
unset it transitions to set exactly once when set at all. -/
theorem readiness_signal_one_shot (pmatch : String → Bool) (hs : List Happening) :
    (∀ h, stepReady pmatch true h = true)
    ∧ runReady pmatch true hs = true
    ∧ (runReady pmatch false hs = true ↔ ∃ h ∈ hs, isSetter pmatch h = true)
    ∧ countFlips pmatch false hs
        = (if runReady pmatch false hs = true then 1 else 0) :=
  ⟨stepReady_on_set pmatch, runReady_on_set pmatch hs,
    runReady_eq_true_iff pmatch hs, countFlips_on_unset pmatch hs⟩

end ReadinessDetector

namespace HackrfGuard

/-- If every in-window check finds the serial busy, the loop never exits
early. -/
lemma waitLoop_all_busy (polls : List Bool)
    (h : ∀ b ∈ polls, b = true) : waitLoop polls = false := by
  induction polls with
  | nil => rfl
  | cons b bs ih =>
    have hb : b = true := h b (by simp)
    simp only [waitLoop, hb]
    exact ih (fun x hx => h x (by simp [hx]))

/-- If some in-window check finds the serial free, the loop exits free. -/
lemma waitLoop_some_free (polls : List Bool)
    (h : ∃ b ∈ polls, b = false) : waitLoop polls = true := by
  induction polls with
  | nil => simp at h
  | cons b bs ih =>
    cases b with
    | false => rfl
    | true =>
      simp only [waitLoop, Bool.not_true, Bool.false_eq_true, if_false]
      apply ih
      obtain ⟨x, hx, hfx⟩ := h
      rcases List.mem_cons.mp hx with hhead | htail
      · rw [hhead] at hfx; cases hfx
      · exact ⟨x, htail, hfx⟩

/-- C9: for a non-empty device serial, wait_hackrf_free returns busy
(false) when every poll in the bounded window and the final re-check all
find a capture process bound to the serial, and returns free (true) as
soon as any poll inside the window finds no process bound to it. -/
theorem wait_hackrf_free_guard (serial : String) (polls : List Bool)
    (finalBusy : Bool) (hserial : serial ≠ "") :
    ((∀ b ∈ polls, b = true) → finalBusy = true →
        wait_hackrf_free serial polls finalBusy = false)
    ∧ ((∃ b ∈ polls, b = false) →
        wait_hackrf_free serial polls finalBusy = true) := by
  constructor
  · intro hall hfin
    simp [wait_hackrf_free, hserial, waitLoop_all_busy polls hall, hfin]
  · intro hfree
    simp [wait_hackrf_free, hserial, waitLoop_some_free polls hfree]

/-- Witness for C9 at a concrete input: a serial that stays busy through a
two-poll window and the final re-check is reported busy. -/
theorem wait_hackrf_free_guard_witness :
    wait_hackrf_free "930c64dc292c35c3" [true, true] true = false :=
  (wait_hackrf_free_guard "930c64dc292c35c3" [true, true] true
    (by decide)).1 (by decide) rfl

end HackrfGuard

namespace Collector

/-- The attempt body touches no file outside the attempt's own scoped
names. -/
lemma attemptWrites_frame (fs : FS) (n : ℕ) (d : AttemptData) (f : FName)
    (hf : attemptScoped n f = false) : attemptWrites fs n d f = fs f := by
  simp only [attemptScoped, Bool.or_eq_false_iff, beq_eq_false_iff_ne, ne_eq] at hf
  obtain ⟨⟨⟨⟨h1, h2⟩, h3⟩, h4⟩, h5⟩ := hf
  by_cases hr : d.readyOk = true <;>
    simp [attemptWrites, clearTry, writeF, hr, h1, h2, h3, h4, h5]

/-- After the attempt body, the attempt .iq file of rx1 holds what the rx1
capture process left there. -/
lemma attemptWrites_rx1_iq_try (fs : FS) (n : ℕ) (d : AttemptData) :
    attemptWrites fs n d (.rx1_iq_try n) = d.rx1Iq := by
  by_cases hr : d.readyOk = true <;> simp [attemptWrites, clearTry, writeF, hr]

/-- After the attempt body, the attempt .iq file of rx2 holds what the rx2
capture process left there. -/
lemma attemptWrites_rx2_iq_try (fs : FS) (n : ℕ) (d : AttemptData) :
    attemptWrites fs n d (.rx2_iq_try n) = d.rx2Iq := by
  by_cases hr : d.readyOk = true <;> simp [attemptWrites, clearTry, writeF, hr]

/-- Log promotion and canonical-iq unlinking do not touch the attempt .iq
files. -/
lemma promote_unlink_try_iq (fs : FS) (n : ℕ) :
    unlinkCanonIq (promoteLogs fs n) (.rx1_iq_try n) = fs (.rx1_iq_try n)
    ∧ unlinkCanonIq (promoteLogs fs n) (.rx2_iq_try n) = fs (.rx2_iq_try n) := by
  constructor <;> simp [unlinkCanonIq, promoteLogs, writeF]

/-- replaceF succeeds exactly when the source file exists. -/
lemma replaceF_snd (fs : FS) (src dst : FName) :
    (replaceF fs src dst).2 = (fs src).isSome := by
  cases h : fs src <;> simp [replaceF, h]

/-- An attempt succeeds exactly when its checks pass and both attempt .iq
files exist, independently of the prior file system state. -/
lemma runAttempt_snd (fs : FS) (n : ℕ) (d : AttemptData) :
    (runAttempt fs n d).2 = attemptSucceeds d := by
  by_cases hc : checksPass d = true
  · simp only [runAttempt, hc, if_true]
    have e1 : unlinkCanonIq (promoteLogs (attemptWrites fs n d) n) (.rx1_iq_try n)
        = d.rx1Iq :=
      (promote_unlink_try_iq (attemptWrites fs n d) n).1.trans
        (attemptWrites_rx1_iq_try fs n d)
    cases h1 : d.rx1Iq with
    | none =>
      have hr1 : (replaceF (unlinkCanonIq (promoteLogs (attemptWrites fs n d) n))
          (.rx1_iq_try n) .rx1_iq).2 = false := by
        rw [replaceF_snd, e1, h1]; rfl
      simp [hr1, attemptSucceeds, h1]
    | some v1 =>
      have hr1 : (replaceF (unlinkCanonIq (promoteLogs (attemptWrites fs n d) n))
          (.rx1_iq_try n) .rx1_iq).2 = true := by
        rw [replaceF_snd, e1, h1]; rfl
      have hfst : (replaceF (unlinkCanonIq (promoteLogs (attemptWrites fs n d) n))
          (.rx1_iq_try n) .rx1_iq).1 (.rx2_iq_try n)
          = d.rx2Iq := by
        rw [show (replaceF (unlinkCanonIq (promoteLogs (attemptWrites fs n d) n))
            (.rx1_iq_try n) .rx1_iq).1
          = writeF (writeF (unlinkCanonIq (promoteLogs (attemptWrites fs n d) n))
              .rx1_iq (some v1)) (.rx1_iq_try n) none from by simp [replaceF, e1, h1]]
        simp only [writeF]
        rw [if_neg (by simp), if_neg (by simp)]
        exact (promote_unlink_try_iq (attemptWrites fs n d) n).2.trans
          (attemptWrites_rx2_iq_try fs n d)
      simp only [hr1, if_true]
      cases h2 : d.rx2Iq with
      | none =>
        have hr2 : (replaceF ((replaceF (unlinkCanonIq (promoteLogs
            (attemptWrites fs n d) n)) (.rx1_iq_try n) .rx1_iq).1)
            (.rx2_iq_try n) .rx2_iq).2 = false := by
          rw [replaceF_snd, hfst, h2]; rfl
        simp [hr2, attemptSucceeds, hc, h1, h2]
      | some v2 =>
        have hr2 : (replaceF ((replaceF (unlinkCanonIq (promoteLogs
            (attemptWrites fs n d) n)) (.rx1_iq_try n) .rx1_iq).1)
            (.rx2_iq_try n) .rx2_iq).2 = true := by
          rw [replaceF_snd, hfst, h2]; rfl
        simp [hr2, attemptSucceeds, hc, h1, h2]
  · rw [Bool.not_eq_true] at hc
    simp [runAttempt, attemptSucceeds, hc]

/-- C3: every attempt writes only to attempt-scoped file names: a Failed
attempt leaves every non-attempt-scoped file (in particular every canonical
per-run file) unchanged, and after a Succeeded attempt the canonical .iq
files exist and hold exactly that attempt's captured data, and the
canonical logs hold that attempt's log data.  The two hypotheses express
the capture-tool contract that a receiver exiting 0 has written its output
file. -/
theorem attempt_isolation (fs : FS) (n : ℕ) (d : AttemptData)
    (hc1 : d.rx1Rc = some 0 → d.rx1Iq.isSome = true)
    (hc2 : d.rx2Rc = some 0 → d.rx2Iq.isSome = true) :
    ((runAttempt fs n d).2 = false →
        ∀ f, attemptScoped n f = false → (runAttempt fs n d).1 f = fs f)
    ∧ ((runAttempt fs n d).2 = true →
        (runAttempt fs n d).1 FName.rx1_iq = d.rx1Iq
        ∧ (runAttempt fs n d).1 FName.rx2_iq = d.rx2Iq
        ∧ d.rx1Iq.isSome = true ∧ d.rx2Iq.isSome = true
        ∧ (runAttempt fs n d).1 FName.rx1_log = some d.rx1Log
        ∧ (runAttempt fs n d).1 FName.rx2_log = some d.rx2Log
        ∧ (runAttempt fs n d).1 FName.tx_log = some d.txLog) := by
  by_cases hcp : checksPass d = true
  · have hcc := hcp
    simp only [checksPass, Bool.and_eq_true, beq_iff_eq] at hcc
    obtain ⟨⟨⟨hready, _htx⟩, hrc1⟩, hrc2⟩ := hcc
    obtain ⟨v1, hv1⟩ := Option.isSome_iff_exists.mp (hc1 hrc1)
    obtain ⟨v2, hv2⟩ := Option.isSome_iff_exists.mp (hc2 hrc2)
    constructor
    · intro hfalse
      rw [runAttempt_snd] at hfalse
      simp [attemptSucceeds, hcp, hv1, hv2] at hfalse
    · intro _
      refine ⟨?_, ?_, by simp [hv1], by simp [hv2], ?_, ?_, ?_⟩ <;>
        simp [runAttempt, hcp, attemptWrites, clearTry, promoteLogs,
          unlinkCanonIq, replaceF, writeF, hv1, hv2, hready]
  · constructor
    · intro _ f hf
      have hfs : (runAttempt fs n d).1 = attemptWrites fs n d := by
        simp [runAttempt, hcp]
      rw [hfs]
      exact attemptWrites_frame fs n d f hf
    · intro htrue
      rw [runAttempt_snd] at htrue
      rw [Bool.not_eq_true] at hcp
      simp [attemptSucceeds, hcp] at htrue

/-- Witness for C3 at a concrete input: a failed attempt (TX exited 1)
leaves the canonical rx1.iq untouched. -/
theorem attempt_isolation_witness :
    (runAttempt (fun _ => (some 7 : Option ℕ)) 1
        ⟨true, some 1, some 0, some 0, 10, 11, 12, some 5, some 6⟩).1
        FName.rx1_iq
      = (fun _ => (some 7 : Option ℕ)) FName.rx1_iq :=
  (attempt_isolation (fun _ => (some 7 : Option ℕ)) 1
      ⟨true, some 1, some 0, some 0, 10, 11, 12, some 5, some 6⟩
      (fun _ => rfl) (fun _ => rfl)).1 rfl FName.rx1_iq rfl

/-- C5 amended: in the attempt loop of app/collector.py, a receiver exiting
with a non-zero code in the completion phase makes the attempt Failed, and
a Succeeded attempt requires both receivers to have exited with code zero
within the receiver deadline; in run_capture (local_collect.py and
controller_lib.py) the receivers' completion exit codes only produce
warnings and never influence the outcome, which depends on the transmitter
exit code alone. -/
theorem completion_exit_codes (fs : FS) (n : ℕ) (d : AttemptData) :
    ((∀ c : Int, c ≠ 0 → (d.rx1Rc = some c ∨ d.rx2Rc = some c) →
        (runAttempt fs n d).2 = false)
    ∧ ((runAttempt fs n d).2 = true → d.rx1Rc = some 0 ∧ d.rx2Rc = some 0))
    ∧ (∀ (e1 e2 : Bool) (t : ℚ) (tr : List LocalCollect.Obs) (txRc : Int)
        (rxFinal rxFinal2 : List (Option Int)),
        LocalCollect.run_capture e1 e2 t tr txRc rxFinal
          = LocalCollect.run_capture e1 e2 t tr txRc rxFinal2) := by
  refine ⟨?_, fun _ _ _ _ _ _ _ => rfl⟩
  constructor
  · intro c hc hmem
    rw [runAttempt_snd]
    rcases hmem with h | h
    · have hne : (d.rx1Rc == some 0) = false := by
        rw [h]
        simp [hc]
      simp [attemptSucceeds, checksPass, hne]
    · have hne : (d.rx2Rc == some 0) = false := by
        rw [h]
        simp [hc]
      simp [attemptSucceeds, checksPass, hne]
  · intro htrue
    rw [runAttempt_snd] at htrue
    simp only [attemptSucceeds, checksPass, Bool.and_eq_true, beq_iff_eq] at htrue
    exact ⟨htrue.1.1.1.2, htrue.1.1.2⟩

/-- One step of the attempt loop. -/
lemma runRunGo_cons (ds : ℕ → AttemptData) (maxRetries : ℕ) (fs : FS)
    (sleeps a : ℕ) (rest : List ℕ) :
    runRunGo ds maxRetries fs sleeps (a :: rest)
      = if (runAttempt fs a (ds a)).2
          then .promoted (runAttempt fs a (ds a)).1 a sleeps
        else if a < maxRetries
          then runRunGo ds maxRetries (runAttempt fs a (ds a)).1 (sleeps + 1) rest
        else .abortedRun a sleeps := rfl

/-- When every attempt in the remaining range fails, the loop walks the
whole range, sleeping once per failed non-final attempt, and raises at the
final attempt. -/
lemma runRunGo_all_fail (ds : ℕ → AttemptData) (maxRetries : ℕ) :
    ∀ (k a : ℕ) (fs : FS) (sleeps : ℕ),
      a + k = maxRetries →
      (∀ j, a ≤ j → j ≤ maxRetries → attemptSucceeds (ds j) = false) →
      runRunGo ds maxRetries fs sleeps (List.range' a (k + 1))
        = .abortedRun maxRetries (sleeps + k) := by
  intro k
  induction k with
  | zero =>
    intro a fs sleeps hak hfail
    have ha : a = maxRetries := by omega
    subst ha
    have hf : attemptSucceeds (ds a) = false := hfail a le_rfl le_rfl
    rw [show (0 + 1 : ℕ) = 1 from rfl, List.range'_one, runRunGo_cons,
      runAttempt_snd, hf]
    simp
  | succ k ih =>
    intro a fs sleeps hak hfail
    have hf : attemptSucceeds (ds a) = false := hfail a le_rfl (by omega)
    have halt : a < maxRetries := by omega
    rw [List.range'_succ, runRunGo_cons, runAttempt_snd, hf]
    simp only [Bool.false_eq_true, if_false, if_pos halt]
    rw [ih (a + 1) _ (sleeps + 1) (by omega)
      (fun j hj1 hj2 => hfail j (by omega) hj2)]
    congr 1
    omega

/-- A run whose attempts all fail aborts after exactly maxRetries attempts
with maxRetries - 1 backoff sleeps. -/
lemma runRun_all_fail (ds : ℕ → AttemptData) (maxRetries : ℕ) (fs : FS)
    (hmax : 1 ≤ maxRetries)
    (hfail : ∀ a, 1 ≤ a → a ≤ maxRetries → attemptSucceeds (ds a) = false) :
    runRun ds maxRetries fs = .abortedRun maxRetries (maxRetries - 1) := by
  unfold runRun
  have hlist : List.range' 1 maxRetries = List.range' 1 ((maxRetries - 1) + 1) := by
    congr 1
    omega
  rw [hlist, runRunGo_all_fail ds maxRetries (maxRetries - 1) 1 fs 0
    (by omega) hfail]
  congr 1
  omega

/-- One step of the session loop. -/
lemma run_collection_go_cons (ds : ℕ → ℕ → AttemptData) (maxRetries : ℕ)
    (started : List ℕ) (i : ℕ) (rest : List ℕ) :
    run_collection_go ds maxRetries started (i :: rest)
      = if (runRun (ds i) maxRetries emptyFS).aborted
          then .abortedSession 1 i (started ++ [i])
        else run_collection_go ds maxRetries (started ++ [i]) rest := rfl

/-- The session loop aborts at the first run whose retry loop raises,
having started exactly the runs up to and including it. -/
lemma run_collection_go_abort (ds : ℕ → ℕ → AttemptData) (maxRetries r : ℕ)
    (habort : (runRun (ds r) maxRetries emptyFS).aborted = true) :
    ∀ (pre post started : List ℕ),
      (∀ i ∈ pre, (runRun (ds i) maxRetries emptyFS).aborted = false) →
      run_collection_go ds maxRetries started (pre ++ r :: post)
        = .abortedSession 1 r (started ++ pre ++ [r]) := by
  intro pre
  induction pre with
  | nil =>
    intro post started _
    rw [List.nil_append, run_collection_go_cons, habort]
    simp
  | cons x xs ih =>
    intro post started hpre
    have hx : (runRun (ds x) maxRetries emptyFS).aborted = false :=
      hpre x (by simp)
    rw [List.cons_append, run_collection_go_cons, hx]
    simp only [Bool.false_eq_true, if_false]
    rw [ih post (started ++ [x]) (fun i hi => hpre i (by simp [hi]))]
    simp

/-- C4: if the r-th run's max_retries consecutive attempts all fail (and
every earlier run's retry loop did not abort), the run executes exactly
max_retries attempts with max_retries - 1 backoff sleeps between them (none
after the final one), and the whole session aborts immediately with
SystemExit status 1: the started runs are exactly 1..r, so no run with a
higher index is ever started. -/
theorem retry_exhaustion_aborts_session
    (ds : ℕ → ℕ → AttemptData) (runs maxRetries r : ℕ)
    (hmax : 1 ≤ maxRetries) (hr1 : 1 ≤ r) (hrle : r ≤ runs)
    (hprev : ∀ i, 1 ≤ i → i < r →
      (runRun (ds i) maxRetries emptyFS).aborted = false)
    (hfail : ∀ a, 1 ≤ a → a ≤ maxRetries → attemptSucceeds (ds r a) = false) :
    (runRun (ds r) maxRetries emptyFS).attemptsUsed = maxRetries
    ∧ (runRun (ds r) maxRetries emptyFS).sleeps = maxRetries - 1
    ∧ run_collection ds runs maxRetries
        = .abortedSession 1 r (List.range' 1 r) := by
  have hrr := runRun_all_fail (ds r) maxRetries emptyFS hmax hfail
  refine ⟨by rw [hrr]; rfl, by rw [hrr]; rfl, ?_⟩
  have e2 : runs = (runs - r + 1) + (r - 1) := by omega
  have hsplit : List.range' 1 runs
      = List.range' 1 (r - 1) ++ r :: List.range' (r + 1) (runs - r) := by
    calc List.range' 1 runs
        = List.range' 1 ((runs - r + 1) + (r - 1)) := by rw [← e2]
      _ = List.range' 1 (r - 1) ++ List.range' (1 + (r - 1)) (runs - r + 1) :=
          (List.range'_append_1 1 (r - 1) (runs - r + 1)).symm
      _ = List.range' 1 (r - 1) ++ List.range' r (runs - r + 1) := by
          rw [show 1 + (r - 1) = r by omega]
      _ = List.range' 1 (r - 1) ++ r :: List.range' (r + 1) (runs - r) := by
          rw [List.range'_succ]
  unfold run_collection
  rw [hsplit, run_collection_go_abort ds maxRetries r (by rw [hrr]; rfl)
    (List.range' 1 (r - 1)) (List.range' (r + 1) (runs - r)) []
    (fun i hi => by
      have hm := List.mem_range'_1.mp hi
      exact hprev i hm.1 (by omega))]
  have hconcat : List.range' 1 r = List.range' 1 (r - 1) ++ [r] := by
    conv_lhs => rw [show r = (r - 1) + 1 by omega]
    rw [List.range'_1_concat]
    rw [show 1 + (r - 1) = r by omega]
  rw [List.nil_append, hconcat]

/-- Witness for C4 at a concrete input: two runs, three retries, every
attempt failing at the readiness phase; the session aborts at run 1. -/
theorem retry_exhaustion_aborts_session_witness :
    run_collection (fun _ _ => ⟨false, none, none, none, 0, 0, 0, none, none⟩)
        2 3
      = .abortedSession 1 1 (List.range' 1 1) :=
  (retry_exhaustion_aborts_session
      (fun _ _ => ⟨false, none, none, none, 0, 0, 0, none, none⟩) 2 3 1
      (by omega) (by omega) (by omega)
      (fun i h1 h2 => absurd (h1.trans_lt h2) (lt_irrefl 1))
      (fun _ _ _ => rfl)).2.2

/-- Witness for C5 at a concrete input: rx1 exiting with code 2 fails the
attempt. -/
theorem completion_exit_codes_witness :
    (runAttempt (fun _ => (none : Option ℕ)) 1
        ⟨true, some 0, some 2, some 0, 0, 0, 0, some 1, some 1⟩).2 = false :=
  (completion_exit_codes (fun _ => (none : Option ℕ)) 1
      ⟨true, some 0, some 2, some 0, 0, 0, 0, some 1, some 1⟩).1.1 2
    (by decide) (Or.inl rfl)

end Collector

namespace Timing

/-- C6 counterexample: in the app collector the per-attempt receiver-wait
deadline max(2.0, safety_margin + 2.0) is independent of the sample count,
so no fixed grace period makes it equal the claimed
sample_count / sample_rate + margin + grace for every attempt: at margin 1
it is 3.0 for both 7000 and 20,000,000 samples at 20 MHz, while the claimed
formula differs between those two configurations. -/
theorem rx_deadline_not_claimed_formula :
    ¬ ∃ g : ℚ, ∀ (ns sr : ℕ) (margin : ℚ),
        rx_deadline margin = claimed_deadline ns sr margin g := by
  rintro ⟨g, h⟩
  have h2 : claimed_deadline 7000 20000000 1 g
      = claimed_deadline 20000000 20000000 1 g :=
    (h 7000 20000000 1).symm.trans (h 20000000 20000000 1)
  simp only [claimed_deadline] at h2
  have h3 : (7000 : ℚ) / 20000000 + 1 + g = (20000000 : ℚ) / 20000000 + 1 + g := by
    exact_mod_cast h2
  have h4 : (7000 : ℚ) / 20000000 = 1 := by linarith
  norm_num at h4

/-- C6 amended: in run_capture (local_collect.py; controller_lib.py is the
same up to the max(1, rate) guard), the receiver-completion deadline equals
sample_count / sample_rate plus the safety margin plus the fixed 2.0 s
grace, and for num_samples = 7000, sample_rate = 20,000,000 the
expected-runtime term equals 7/20000 s = 0.35 ms; the app collector instead
uses max(2.0, safety_margin + 2.0), independent of the sample count. -/
theorem run_capture_completion_deadline (nsamples sample_rate_hz : ℕ)
    (margin : ℚ) (hsr : 1 ≤ sample_rate_hz) :
    rx_wait_deadline nsamples sample_rate_hz margin
      = claimed_deadline nsamples sample_rate_hz margin 2
    ∧ capture_secs 7000 20000000 = 7 / 20000
    ∧ rx_deadline margin = max 2 (margin + 2) := by
  refine ⟨?_, ?_, rfl⟩
  · unfold rx_wait_deadline wait_budget capture_secs claimed_deadline
    rw [max_eq_right hsr]
  · unfold capture_secs
    norm_num

/-- Witness for the amended C6 at a concrete input:
num_samples = 7000, sample_rate = 20 MHz, safety margin 1 s. -/
theorem run_capture_completion_deadline_witness :
    rx_wait_deadline 7000 20000000 1 = claimed_deadline 7000 20000000 1 2 :=
  (run_capture_completion_deadline 7000 20000000 1 (by norm_num)).1

end Timing

namespace Latest

/-- C8 counterexample: with two completed runs whose rx1.iq contents
differ, after run 2 completes the Latest directory still holds run 1's
files and marker, not run 2's: the session loop rewrites Latest only when
the run index is 1. -/
theorem latest_not_most_recent_run :
    latestAfterRuns (fun i => [("rx1.iq", i)]) none 2
        = some ⟨[("rx1.iq", 1)], none, 1⟩
    ∧ latestAfterRuns (fun i => [("rx1.iq", i)]) none 2
        ≠ some ⟨[("rx1.iq", 2)], none, 2⟩ := by
  exact ⟨rfl, by decide⟩

/-- C8 amended: the Latest directory is written exactly once per session,
after run 1 completes; for every n ≥ 1, after runs 1..n have completed,
Latest holds copies of run 1's files (with the session config and the
marker naming run 1), so later completed runs leave it unchanged. -/
theorem latest_mirrors_first_run (runFiles : ℕ → List (String × ℕ))
    (sessionConfig : Option ℕ) (n : ℕ) (hn : 1 ≤ n) :
    latestAfterRuns runFiles sessionConfig n
      = some (_update_latest_dir none (runFiles 1) sessionConfig 1) := by
  induction n with
  | zero => omega
  | succ m ih =>
    rcases Nat.eq_zero_or_pos m with hm | hm
    · subst hm
      rfl
    · have hne : m + 1 ≠ 1 := by omega
      simp only [latestAfterRuns, latestAfterRun, if_neg hne]
      exact ih hm

/-- Witness for the amended C8 at a concrete input: after two completed
runs, Latest mirrors run 1. -/
theorem latest_mirrors_first_run_witness :
    latestAfterRuns (fun i => [("rx1.iq", i)]) none 2
      = some (_update_latest_dir none [("rx1.iq", 1)] none 1) :=
  latest_mirrors_first_run (fun i => [("rx1.iq", i)]) none 2 (by omega)

end Latest
